import Mathlib

/-!
Shallow embedding of the `wapuugotchi/feed` repository
(`scripts/check_wordpress.py` and `scripts/build_feed.py`) and proofs of
the specification claims about it.

The two scripts are single-shot batch jobs over JSON files on disk.  We
embed their pure decision logic directly; file reads/writes and the
network fetch become explicit parameters and results, and Python
exceptions become `Except PyErr`.
-/

/-- Python exception kinds that the modelled code can raise. -/
inductive PyErr where
  | attributeError
  | typeError
  | keyError
  | valueError
  deriving DecidableEq, Repr

/-- JSON values as decoded by Python's `json.loads`: objects become dicts
(association lists here), arrays become lists, numbers are modelled as
integers (all numbers occurring in this system are version strings or
absent, so the integer restriction is immaterial). -/
inductive Json where
  | null
  | bool (b : Bool)
  | num (n : Int)
  | str (s : String)
  | arr (xs : List Json)
  | obj (kvs : List (String × Json))

/-- Python truthiness (`if not x`) on decoded JSON values: `None`, `False`,
`0`, `""`, `[]` and the empty dict are falsy. -/
def pyFalsy : Json → Bool
  | .null => true
  | .bool b => !b
  | .num n => n == 0
  | .str s => s == ""
  | .arr xs => xs.isEmpty
  | .obj kvs => kvs.isEmpty

mutual
/-- Python `==` on decoded JSON values (structural equality). -/
def jsonEq : Json → Json → Bool
  | .null, .null => true
  | .bool a, .bool b => a == b
  | .num a, .num b => a == b
  | .str a, .str b => a == b
  | .arr a, .arr b => jsonListEq a b
  | .obj a, .obj b => jsonObjEq a b
  | _, _ => false

/-- Elementwise Python `==` on JSON arrays. -/
def jsonListEq : List Json → List Json → Bool
  | [], [] => true
  | a :: as_, b :: bs => jsonEq a b && jsonListEq as_ bs
  | _, _ => false

/-- Entrywise Python `==` on JSON objects (dicts with unique keys, so
positional comparison of the stored pairs is faithful for the values this
system produces). -/
def jsonObjEq : List (String × Json) → List (String × Json) → Bool
  | [], [] => true
  | a :: as_, b :: bs => (a.1 == b.1) && jsonEq a.2 b.2 && jsonObjEq as_ bs
  | _, _ => false
end

mutual
/-- Python `str()` of a decoded JSON value, as interpolated by an f-string;
containers render via `repr` of their elements. -/
def pyStr : Json → String
  | .null => "None"
  | .bool b => if b then "True" else "False"
  | .num n => toString n
  | .str s => s
  | .arr xs => "[" ++ pyReprList xs ++ "]"
  | .obj kvs => "\x7b" ++ pyReprObj kvs ++ "\x7d"

/-- Python `repr()` of a decoded JSON value (single-quote convention). -/
def pyRepr : Json → String
  | .null => "None"
  | .bool b => if b then "True" else "False"
  | .num n => toString n
  | .str s => "'" ++ s ++ "'"
  | .arr xs => "[" ++ pyReprList xs ++ "]"
  | .obj kvs => "\x7b" ++ pyReprObj kvs ++ "\x7d"

/-- Comma-separated `repr`s of the elements of a Python list. -/
def pyReprList : List Json → String
  | [] => ""
  | [x] => pyRepr x
  | x :: xs => pyRepr x ++ ", " ++ pyReprList xs

/-- Comma-separated `repr`s of the entries of a Python dict. -/
def pyReprObj : List (String × Json) → String
  | [] => ""
  | [kv] => "'" ++ kv.1 ++ "': " ++ pyRepr kv.2
  | kv :: kvs => "'" ++ kv.1 ++ "': " ++ pyRepr kv.2 ++ ", " ++ pyReprObj kvs
end

/-- Python `dict.get(key)` on a JSON object's entry list: the value at the
first matching key, if any. -/
def jsonLookup (key : String) : List (String × Json) → Option Json
  | [] => none
  | kv :: kvs => if kv.1 == key then some kv.2 else jsonLookup key kvs

/-- Site metadata loaded from `site.json`: the keys `title`, `link`,
`description` are each optionally present (`none` models an absent key, and
an absent file yields the empty mapping, i.e. all `none`). -/
structure Site where
  title : Option String
  link : Option String
  description : Option String

/-- One record of `entries.json`.  The fields `id`, `title`, `link`,
`content` are optionally present (the feed builder defaults each absent one);
`created_at` is accessed with mandatory indexing (`entry["created_at"]`) by
the feed builder, so it is kept mandatory here. -/
structure Entry where
  id : Option String
  title : Option String
  link : Option String
  content : Option String
  created_at : String
  deriving DecidableEq

/-! ## State Checker (`scripts/check_wordpress.py`) -/

/-- Contents of `state.json`: the value stored under the key
`"wordpress_latest"` (`Json.null` models both Python `None` and an absent
key, which behave identically under `state.get("wordpress_latest")`).  The
default when `state.json` is absent is `{"wordpress_latest": None}`. -/
structure StateJson where
  wordpress_latest : Json

/-- Embedding of `fetch_latest_version` applied to an already-decoded JSON
response body `data`:

    offers = data.get("offers", [])
    if not offers:
        return None
    return offers[0].get("version")

`data.get` raises `AttributeError` unless `data` is a dict; `offers[0]`
raises `TypeError` on non-subscriptable values and `KeyError` on a dict
(whose keys here are strings, never `0`); `.get` on a non-dict first
element raises `AttributeError`.  The network transport itself is outside
this model. -/
def fetch_latest_version (data : Json) : Except PyErr Json :=
  match data with
  | .obj kvs =>
    let offers := (jsonLookup "offers" kvs).getD (.arr [])
    if pyFalsy offers then .ok .null
    else
      match offers with
      | .arr (first :: _) =>
        match first with
        | .obj kvs1 => .ok ((jsonLookup "version" kvs1).getD .null)
        | _ => .error .attributeError
      | .str _ => .error .attributeError
      | _ => .error .typeError
  | _ => .error .attributeError

/-- The Entry dict that `main` synthesizes for a newly observed version
`latest`; `now` stands for the `iso_now()` timestamp of the run. -/
def newEntry (latest : Json) (site : Site) (now : String) : Entry :=
  { id := some ("wordpress-" ++ pyStr latest),
    title := some ("WordPress " ++ pyStr latest ++ " verfuegbar"),
    link := some (site.link.getD ""),
    content := some ("Neue WordPress Version " ++ pyStr latest ++ " wurde entdeckt."),
    created_at := now }

/-- Embedding of `main` of `check_wordpress.py` after loading: `state`,
`entries` and `site` are the loaded (or defaulted) file contents, `fetched`
is the outcome of `fetch_latest_version`, and `now` the run timestamp.  The
result is the pair (state.json contents, entries.json contents) after the
run; a run that returns early leaves both unchanged (no write occurs). -/
def checkMain (state : StateJson) (entries : List Entry) (site : Site)
    (fetched : Except PyErr Json) (now : String) :
    Except PyErr (StateJson × List Entry) :=
  match fetched with
  | .error e => .error e
  | .ok latest =>
    if pyFalsy latest then .ok (state, entries)
    else if jsonEq state.wordpress_latest latest then .ok (state, entries)
    else .ok ({ wordpress_latest := latest }, entries ++ [newEntry latest site now])

/-- A whole State Checker run driven by a decoded JSON response body. -/
def checkMainFromResponse (state : StateJson) (entries : List Entry) (site : Site)
    (response : Json) (now : String) : Except PyErr (StateJson × List Entry) :=
  checkMain state entries site (fetch_latest_version response) now

/-- One State Checker run in a sequence of runs: the run fetches version
string `r.1` at timestamp `r.2`; an aborted run leaves the files as they
were. -/
def runStr (site : Site) (acc : StateJson × List Entry) (r : String × String) :
    StateJson × List Entry :=
  match checkMain acc.1 acc.2 site (.ok (.str r.1)) r.2 with
  | .ok res => res
  | .error _ => acc

/-- A sequence of State Checker runs starting from a fresh system: no
`state.json` (so the default `{"wordpress_latest": None}`) and an empty
entry list.  Each element of `runs` is one run's fetched version string and
timestamp. -/
def runAllStr (site : Site) (runs : List (String × String)) : StateJson × List Entry :=
  runs.foldl (runStr site) ({ wordpress_latest := .null }, [])

/-! ## Feed Builder (`scripts/build_feed.py`) -/

/-- A Python `datetime` value: calendar fields plus an optional UTC offset
in minutes (`none` models a naive datetime, `tzinfo is None`). -/
structure DateTime where
  year : Nat
  month : Nat
  day : Nat
  hour : Nat
  minute : Nat
  second : Nat
  offset : Option Int
  deriving DecidableEq

/-- Leap-year test of the proleptic Gregorian calendar. -/
def isLeap (y : Nat) : Bool :=
  y % 4 == 0 && (y % 100 != 0 || y % 400 == 0)

/-- Length of month `m` of year `y`. -/
def daysInMonth (y m : Nat) : Nat :=
  if m == 2 then (if isLeap y then 29 else 28)
  else if m == 4 || m == 6 || m == 9 || m == 11 then 30
  else 31

/-- Numeric value of two decimal digit characters, if both are digits. -/
def twoDigits (a b : Char) : Option Nat :=
  if a.isDigit && b.isDigit then some ((a.toNat - 48) * 10 + (b.toNat - 48))
  else none

/-- Numeric value of four decimal digit characters, if all are digits. -/
def fourDigits (a b c d : Char) : Option Nat :=
  if a.isDigit && b.isDigit && c.isDigit && d.isDigit then
    some ((a.toNat - 48) * 1000 + (b.toNat - 48) * 100 + (c.toNat - 48) * 10 + (d.toNat - 48))
  else none

/-- Trailing UTC-offset suffix `±HH:MM` of an ISO string, if the remaining
characters form one (the empty remainder means no offset, a naive result). -/
def parseOffset : List Char → Option (Option Int)
  | [] => some none
  | sign :: h1 :: h2 :: ':' :: m1 :: m2 :: [] =>
    if sign == '+' || sign == '-' then
      match twoDigits h1 h2, twoDigits m1 m2 with
      | some oh, some om =>
        if oh ≤ 23 && om ≤ 59 then
          let mins : Int := oh * 60 + om
          some (some (if sign == '-' then -mins else mins))
        else none
      | _, _ => none
    else none
  | _ => none

/-- Time-of-day part `HH:MM:SS` with optional offset suffix, following the
separator character. -/
def parseTimePart (y mo d : Nat) : List Char → Option DateTime
  | h1 :: h2 :: ':' :: mi1 :: mi2 :: ':' :: s1 :: s2 :: rest =>
    match twoDigits h1 h2, twoDigits mi1 mi2, twoDigits s1 s2 with
    | some h, some mi, some s =>
      if h ≤ 23 && mi ≤ 59 && s ≤ 59 then
        (parseOffset rest).map fun off =>
          { year := y, month := mo, day := d, hour := h, minute := mi, second := s,
            offset := off }
      else none
    | _, _, _ => none
  | _ => none

/-- Modelling of Python's `datetime.fromisoformat` (standard library, not
part of this repository) restricted to the shapes this system produces and
tests: `YYYY-MM-DD`, optionally followed by a one-character separator and
`HH:MM:SS`, optionally followed by a `±HH:MM` offset.  Field ranges are
validated as the `datetime` constructor does; any other string is a parse
failure (`ValueError`, modelled as `none`). -/
def fromisoformat : List Char → Option DateTime
  | y1 :: y2 :: y3 :: y4 :: '-' :: m1 :: m2 :: '-' :: d1 :: d2 :: rest =>
    match fourDigits y1 y2 y3 y4, twoDigits m1 m2, twoDigits d1 d2 with
    | some y, some mo, some d =>
      if 1 ≤ mo && mo ≤ 12 && 1 ≤ d && d ≤ daysInMonth y mo then
        match rest with
        | [] => some { year := y, month := mo, day := d, hour := 0, minute := 0,
                       second := 0, offset := none }
        | _sep :: timeChars => parseTimePart y mo d timeChars
      else none
    | _, _, _ => none
  | _ => none

/-- Replacement of every occurrence of the one-character substring `"Z"`,
as `value.replace("Z", "+00:00")` does. -/
def replaceAllZ : List Char → List Char
  | [] => []
  | 'Z' :: rest => '+' :: '0' :: '0' :: ':' :: '0' :: '0' :: replaceAllZ rest
  | c :: rest => c :: replaceAllZ rest

/-- Embedding of `parse_iso8601`:

    if value.endswith("Z"):
        value = value.replace("Z", "+00:00")
    return datetime.fromisoformat(value)

A raised `ValueError` is modelled as `none`. -/
def parse_iso8601 (value : String) : Option DateTime :=
  let cs := value.data
  let cs := if cs.getLast? == some 'Z' then replaceAllZ cs else cs
  fromisoformat cs

/-- Days since 1970-01-01 of a proleptic Gregorian date (Hinnant's
`days_from_civil`, in its floor-division form). -/
def daysFromCivil (y m d : Int) : Int :=
  let y := if m ≤ 2 then y - 1 else y
  let era := y / 400
  let yoe := y - era * 400
  let mp := (m + 9) % 12
  let doy := (153 * mp + 2) / 5 + d - 1
  let doe := yoe * 365 + yoe / 4 - yoe / 100 + doy
  era * 146097 + doe - 719468

/-- Instant of a datetime in seconds since the epoch, with a naive value
read as UTC; this is the key under which Python compares two datetimes of
equal awareness. -/
def keyOf (dt : DateTime) : Int :=
  86400 * daysFromCivil dt.year dt.month dt.day
    + 3600 * dt.hour + 60 * dt.minute + dt.second
    - 60 * dt.offset.getD 0

/-- Python's `>` on two datetimes: comparable when both are naive or both
aware (compared as instants), a `TypeError` when awareness is mixed.  Two
naive datetimes compare fieldwise, which on calendar-valid fields agrees
with the instant key at offset zero. -/
def dtGT (a b : DateTime) : Except PyErr Bool :=
  match a.offset, b.offset with
  | none, none => .ok (decide (keyOf b < keyOf a))
  | some _, some _ => .ok (decide (keyOf b < keyOf a))
  | _, _ => .error .typeError

/-- Fold of Python's `max` over the tail: the running maximum is replaced
only when a later element compares strictly greater, so ties keep the
earliest element. -/
def pyMaxGo (acc : DateTime) : List DateTime → Except PyErr DateTime
  | [] => .ok acc
  | x :: xs =>
    match dtGT x acc with
    | .error e => .error e
    | .ok g => pyMaxGo (if g then x else acc) xs

/-- Python's `max` over a list of datetimes: `ValueError` on an empty
sequence, `TypeError` on a mixed naive/aware comparison. -/
def pyMax : List DateTime → Except PyErr DateTime
  | [] => .error .valueError
  | x :: xs => pyMaxGo x xs

/-- Zero-padded two-digit decimal rendering. -/
def pad2 (n : Nat) : String :=
  if n < 10 then "0" ++ toString n else toString n

/-- Zero-padded four-digit decimal rendering. -/
def pad4 (n : Nat) : String :=
  if n < 10 then "000" ++ toString n
  else if n < 100 then "00" ++ toString n
  else if n < 1000 then "0" ++ toString n
  else toString n

/-- Abbreviated English month name, as `email.utils.format_datetime`
emits. -/
def monthName : Nat → String
  | 1 => "Jan" | 2 => "Feb" | 3 => "Mar" | 4 => "Apr" | 5 => "May" | 6 => "Jun"
  | 7 => "Jul" | 8 => "Aug" | 9 => "Sep" | 10 => "Oct" | 11 => "Nov" | 12 => "Dec"
  | _ => "???"

/-- Abbreviated English weekday name by index, Sunday-based. -/
def weekdayName : Int → String
  | 0 => "Sun" | 1 => "Mon" | 2 => "Tue" | 3 => "Wed" | 4 => "Thu" | 5 => "Fri"
  | 6 => "Sat" | _ => "???"

/-- Rendering of a UTC-offset in minutes as `±HHMM`. -/
def offsetString (off : Int) : String :=
  let sign := if off < 0 then "-" else "+"
  let a := off.natAbs
  sign ++ pad2 (a / 60) ++ pad2 (a % 60)

/-- Embedding of `rfc2822`: a naive datetime is first given the UTC
timezone, then the value is rendered with `email.utils.format_datetime`
(standard library) as `Day, DD Mon YYYY HH:MM:SS ±HHMM`, keeping the
datetime's own calendar fields and offset. -/
def rfc2822 (dt : DateTime) : String :=
  let off := dt.offset.getD 0
  let wd := (daysFromCivil dt.year dt.month dt.day + 4) % 7
  weekdayName wd ++ ", " ++ pad2 dt.day ++ " " ++ monthName dt.month ++ " "
    ++ pad4 dt.year ++ " " ++ pad2 dt.hour ++ ":" ++ pad2 dt.minute ++ ":"
    ++ pad2 dt.second ++ " " ++ offsetString off

/-- One rendered `<item>` element of the output feed. -/
structure Item where
  title : String
  link : String
  guid : String
  guidIsPermaLink : String
  pubDate : String
  description : String
  deriving DecidableEq

/-- The rendered `<channel>` of `feed.xml`: its three header elements, the
optional `lastBuildDate` element, and the item list in document order. -/
structure Feed where
  title : String
  link : String
  description : String
  lastBuildDate : Option String
  items : List Item
  deriving DecidableEq

/-- The `<item>` built by the loop body of `main` for one entry whose
`created_at` parsed to `d`. -/
def mkItem (site : Site) (e : Entry) (d : DateTime) : Item :=
  { title := e.title.getD "",
    link := e.link.getD (site.link.getD ""),
    guid := e.id.getD "",
    guidIsPermaLink := "false",
    pubDate := rfc2822 d,
    description := e.content.getD "" }

/-- The item loop of `main`: items are emitted in list order, and the first
entry whose `created_at` does not parse aborts the run. -/
def renderItems (site : Site) : List Entry → Except PyErr (List Item)
  | [] => .ok []
  | e :: es =>
    match parse_iso8601 e.created_at with
    | none => .error .valueError
    | some d =>
      match renderItems site es with
      | .error err => .error err
      | .ok rest => .ok (mkItem site e d :: rest)

/-- The generator `parse_iso8601(e["created_at"]) for e in entries`, run to
a list: the first unparseable timestamp aborts with `ValueError`. -/
def parseAllDates : List Entry → Except PyErr (List DateTime)
  | [] => .ok []
  | e :: es =>
    match parse_iso8601 e.created_at with
    | none => .error .valueError
    | some d =>
      match parseAllDates es with
      | .error err => .error err
      | .ok rest => .ok (d :: rest)

/-- Python's `<=` on strings, by character lists: lexicographic comparison
of code points. -/
def charLeList : List Char → List Char → Bool
  | [], _ => true
  | _ :: _, [] => false
  | a :: as_, b :: bs =>
    if a.toNat < b.toNat then true
    else if b.toNat < a.toNat then false
    else charLeList as_ bs

/-- Python's `<=` on strings. -/
def pyStrLe (a b : String) : Bool :=
  charLeList a.data b.data

/-- The sort-key order of line 49: entry `a` may precede entry `b` when
`b`'s key does not exceed `a`'s, i.e. the keys are descending. -/
def entryDescOrder (a b : Entry) : Prop :=
  pyStrLe b.created_at a.created_at = true

instance : DecidableRel entryDescOrder :=
  fun a b => instDecidableEqBool (pyStrLe b.created_at a.created_at) true

/-- The descending stable sort of line 49,
`sorted(entries, key=lambda e: e["created_at"], reverse=True)`: a stable
sort placing larger `created_at` keys first, entries with equal keys
keeping their load order. -/
def sortEntries (entries : List Entry) : List Entry :=
  entries.insertionSort entryDescOrder

/-- Lines 45-47 of `build_feed.py`: the optional lastBuildDate text,
computed only for a truthy (nonempty) entry list as the rendered maximum of
all parsed `created_at` values. -/
def lastBuildOf (entries : List Entry) : Except PyErr (Option String) :=
  if entries.isEmpty then .ok none
  else
    match parseAllDates entries with
    | .error e => .error e
    | .ok dts =>
      match pyMax dts with
      | .error e => .error e
      | .ok latest => .ok (some (rfc2822 latest))

/-- Embedding of `main` of `build_feed.py` up to (but excluding) the final
`tree.write`: the fully constructed document with channel defaults,
optional lastBuildDate and the items of the sorted entry list, or the
exception that aborted construction. -/
def buildFeedRender (site : Site) (entries : List Entry) : Except PyErr Feed :=
  match lastBuildOf entries with
  | .error e => .error e
  | .ok lastBuildDate =>
    match renderItems site (sortEntries entries) with
    | .error e => .error e
    | .ok items =>
      .ok { title := site.title.getD "Wapuugotchi RSS", link := site.link.getD "",
            description := site.description.getD "",
            lastBuildDate := lastBuildDate, items := items }

/-- A whole Feed Builder run: `feedFile` is the prior content of `feed.xml`
(if any); the file is overwritten only after the document is fully
constructed, so an aborted construction leaves it untouched. -/
def buildFeedMain (site : Site) (entries : List Entry) (feedFile : Option Feed) :
    Option Feed :=
  match buildFeedRender site entries with
  | .ok f => some f
  | .error _ => feedFile

/-! ## Invariant of repeated State Checker runs -/

/-- Invariant carried across State Checker runs: no two adjacent entries
share an `id`, and when entries exist the stored state version is the
string the most recent entry's `id` was derived from. -/
def CheckerInv (acc : StateJson × List Entry) : Prop :=
  List.Chain' (fun a b => a.id ≠ b.id) acc.2 ∧
  (acc.2 ≠ [] → ∃ v, acc.1.wordpress_latest = .str v ∧
    ∃ e, acc.2.getLast? = some e ∧ e.id = some ("wordpress-" ++ v))

/-! ## Concrete inputs used by witnesses and counterexamples -/

/-- A site with all three fields present. -/
def exSite : Site :=
  { title := some "Wapuu", link := some "https://wapuu.example", description := some "Feed" }

/-- January entry of the three-entry sort example. -/
def exJan : Entry := ⟨some "jan", some "January", none, none, "2024-01-01T00:00:00Z"⟩

/-- March entry of the three-entry sort example. -/
def exMar : Entry := ⟨some "mar", some "March", none, none, "2024-03-01T00:00:00Z"⟩

/-- February entry of the three-entry sort example. -/
def exFeb : Entry := ⟨some "feb", some "February", none, none, "2024-02-01T00:00:00Z"⟩

/-- The channel a siteless, entryless run renders. -/
def wEmptyFeed : Feed :=
  { title := "Wapuugotchi RSS", link := "", description := "", lastBuildDate := none,
    items := [] }

/-- A stale pre-existing `feed.xml` content. -/
def staleFeed : Feed :=
  { title := "old", link := "old-link", description := "old-desc",
    lastBuildDate := some "old-date", items := [] }

/-- An entry whose `created_at` does not parse. -/
def badEntry : Entry := ⟨some "bad", some "Bad", none, none, "not-a-date"⟩

/-- An entry whose `link` key is present but holds the empty string. -/
def emptyLinkEntry : Entry := ⟨some "x", some "X", some "", none, "2024-01-01T00:00:00Z"⟩

/-- An entry with no `link` key. -/
def absentLinkEntry : Entry := ⟨some "a", some "A", none, none, "2024-01-01T00:00:00Z"⟩

/-- An entry with an explicit non-empty `link`. -/
def explicitLinkEntry : Entry :=
  ⟨some "b", some "B", some "https://elsewhere.example", none, "2024-01-01T00:00:00Z"⟩

/-- The parsed instant 2024-01-01T00:00:00+00:00. -/
def exDT : DateTime := ⟨2024, 1, 1, 0, 0, 0, some 0⟩

/-- An entry carrying the spec's reference timestamp. -/
def mayEntry : Entry := ⟨some "may", some "May", none, none, "2024-05-01T12:00:00Z"⟩

/-- The parsed instant 2024-05-01T12:00:00+00:00. -/
def mayDT : DateTime := ⟨2024, 5, 1, 12, 0, 0, some 0⟩

/-! ## Helper lemmas -/

/-- Python's string equality test on two `str` values is string equality. -/
theorem jsonEq_str (a b : String) : jsonEq (.str a) (.str b) = (a == b) := by
  simp [jsonEq]

/-- A shared prefix cancels on the left of string concatenation. -/
theorem string_append_cancel (p v w : String) (h : p ++ v = p ++ w) : v = w := by
  have hd := congrArg String.data h
  simp only [String.data_append] at hd
  exact congrArg String.mk (List.append_cancel_left hd)

/-- Each pair of sort keys is comparable. -/
theorem charLeList_total : ∀ as_ bs, charLeList as_ bs = true ∨ charLeList bs as_ = true := by
  intro as_
  induction as_ with
  | nil => intro bs; exact Or.inl rfl
  | cons a as_ ih =>
    intro bs
    cases bs with
    | nil => right; rfl
    | cons b bs =>
      rcases Nat.lt_trichotomy a.toNat b.toNat with hab | hab | hab
      · left; simp [charLeList, hab]
      · rcases ih bs with h | h
        · left; simp [charLeList, hab, Nat.lt_irrefl, h]
        · right; simp [charLeList, hab, Nat.lt_irrefl, h]
      · right; simp [charLeList, hab]

/-- Lexicographic comparison of sort keys is transitive. -/
theorem charLeList_trans : ∀ as_ bs cs, charLeList as_ bs = true →
    charLeList bs cs = true → charLeList as_ cs = true := by
  intro as_
  induction as_ with
  | nil => intro bs cs _ _; rfl
  | cons a as_ ih =>
    intro bs cs h1 h2
    cases bs with
    | nil => simp [charLeList] at h1
    | cons b bs =>
      cases cs with
      | nil => simp [charLeList] at h2
      | cons c cs =>
        simp only [charLeList] at h1 h2 ⊢
        rcases Nat.lt_trichotomy a.toNat b.toNat with hab | hab | hab <;>
          rcases Nat.lt_trichotomy b.toNat c.toNat with hbc | hbc | hbc <;>
          simp_all [Nat.lt_irrefl, Nat.lt_asymm] <;>
          first
            | simp [Nat.lt_trans hab hbc]
            | simp [hab ▸ hbc]
            | simp [hbc ▸ hab]
            | omega
            | exact ih bs cs h1 h2

/-! ## C1: change detection appends exactly one entry with a deterministic id -/

/-- C1: when the fetched version is a non-empty string differing from the
stored state version, one run of State Checker's main appends exactly one
new Entry, sets the stored version to the fetched one, and the new Entry's
id is the string `wordpress-` followed by the fetched version (a
deterministic function of the version alone, so a later run observing the
same version would generate the same id). -/
theorem check_main_change_detection (state : StateJson) (entries : List Entry)
    (site : Site) (v : String) (now : String) (hv : v ≠ "")
    (hdiff : jsonEq state.wordpress_latest (.str v) = false) :
    checkMain state entries site (.ok (.str v)) now
      = .ok ({ wordpress_latest := .str v }, entries ++ [newEntry (.str v) site now])
    ∧ (newEntry (.str v) site now).id = some ("wordpress-" ++ v) := by
  constructor
  · have hf : pyFalsy (.str v) = false := by simp [pyFalsy, hv]
    simp [checkMain, hf, hdiff]
  · rfl

/-- Witness for C1 at stored version 6.3 and fetched version 6.4. -/
theorem check_main_change_detection_witness :
    ("6.4" ≠ "") ∧
    jsonEq (StateJson.mk (.str "6.3")).wordpress_latest (.str "6.4") = false ∧
    (checkMain ⟨.str "6.3"⟩ [] exSite (.ok (.str "6.4")) "2024-01-01T00:00:00Z"
        = .ok ({ wordpress_latest := .str "6.4" },
               [] ++ [newEntry (.str "6.4") exSite "2024-01-01T00:00:00Z"])
      ∧ (newEntry (.str "6.4") exSite "2024-01-01T00:00:00Z").id
          = some ("wordpress-" ++ "6.4")) :=
  ⟨by decide, rfl,
    check_main_change_detection ⟨.str "6.3"⟩ [] exSite "6.4" "2024-01-01T00:00:00Z"
      (by decide) rfl⟩

/-! ## C2: unchanged external version is an idempotent no-op -/

/-- C2: when the stored state version equals the fetched value, a run of
State Checker's main performs no write: the state contents and the entry
list are returned unchanged and no new Entry is created. -/
theorem check_main_unchanged_version_noop (state : StateJson) (entries : List Entry)
    (site : Site) (latest : Json) (now : String)
    (h : jsonEq state.wordpress_latest latest = true) :
    checkMain state entries site (.ok latest) now = .ok (state, entries) := by
  simp [checkMain, h]

/-- Witness for C2 at version 6.4 stored and fetched. -/
theorem check_main_unchanged_version_noop_witness :
    jsonEq (StateJson.mk (.str "6.4")).wordpress_latest (.str "6.4") = true ∧
    checkMain ⟨.str "6.4"⟩ [] exSite (.ok (.str "6.4")) "2024-01-01T00:00:00Z"
      = .ok (⟨.str "6.4"⟩, []) :=
  ⟨rfl, check_main_unchanged_version_noop ⟨.str "6.4"⟩ [] exSite (.str "6.4")
    "2024-01-01T00:00:00Z" rfl⟩

/-! ## C10: a blank or missing version in the first offer is a no-op -/

/-- C10: when the response's first offer lacks a `version` key or carries
the empty string, main treats the fetched value as absent and returns
before the state comparison: no Entry is created and both file contents
are left unchanged, exactly as in the no-offers case. -/
theorem check_main_blank_version_noop (state : StateJson) (entries : List Entry)
    (site : Site) (now : String) (kvs kvs1 : List (String × Json)) (rest : List Json)
    (hoff : jsonLookup "offers" kvs = some (.arr (.obj kvs1 :: rest)))
    (hv : jsonLookup "version" kvs1 = none ∨ jsonLookup "version" kvs1 = some (.str "")) :
    checkMainFromResponse state entries site (.obj kvs) now = .ok (state, entries) := by
  rcases hv with hv | hv <;>
    simp [checkMainFromResponse, fetch_latest_version, hoff, hv, checkMain, pyFalsy]

/-- Witness for C10: a response whose single offer has no version key. -/
theorem check_main_blank_version_noop_witness :
    jsonLookup "offers" [("offers", .arr [.obj []])] = some (.arr (.obj [] :: [])) ∧
    (jsonLookup "version" ([] : List (String × Json)) = none ∨
      jsonLookup "version" ([] : List (String × Json)) = some (.str "")) ∧
    checkMainFromResponse ⟨.null⟩ [] exSite (.obj [("offers", .arr [.obj []])])
      "2024-01-01T00:00:00Z" = .ok (⟨.null⟩, []) :=
  ⟨rfl, Or.inl rfl,
    check_main_blank_version_noop ⟨.null⟩ [] exSite "2024-01-01T00:00:00Z"
      [("offers", .arr [.obj []])] [] [] rfl (Or.inl rfl)⟩

/-! ## C9: corrected error handling of unexpected response shapes -/

/-- C9 counterexample: a response whose top level is a JSON array (a shape
not matching the expected offers structure) makes the run raise an
`AttributeError` instead of terminating as a benign no-op, refuting the
claim that every unexpected response shape is treated as "no offers". -/
theorem checker_bad_shape_counterexample :
    checkMainFromResponse ⟨.null⟩ [] exSite (.arr []) "2024-01-01T00:00:00Z"
      = .error .attributeError := rfl

/-- C9 amended: a response that is a JSON object whose `offers` key is
absent or maps to a falsy value (such as the empty list) is treated as "no
offers" and the run terminates as a benign no-op with no side effects;
other shape mismatches (such as a non-object top level) raise instead. -/
theorem checker_no_offers_noop (state : StateJson) (entries : List Entry)
    (site : Site) (now : String) (kvs : List (String × Json))
    (h : jsonLookup "offers" kvs = none ∨
      ∃ v, jsonLookup "offers" kvs = some v ∧ pyFalsy v = true) :
    checkMainFromResponse state entries site (.obj kvs) now = .ok (state, entries) := by
  have hfetch : fetch_latest_version (.obj kvs) = .ok .null := by
    rcases h with h | ⟨v, hv, hf⟩
    · simp [fetch_latest_version, h, pyFalsy]
    · simp [fetch_latest_version, hv, hf]
  simp [checkMainFromResponse, hfetch, checkMain, pyFalsy]

/-- Witness for the amended C9: an object response with no offers key. -/
theorem checker_no_offers_noop_witness :
    (jsonLookup "offers" [("other", .null)] = none ∨
      ∃ v, jsonLookup "offers" [("other", .null)] = some v ∧ pyFalsy v = true) ∧
    checkMainFromResponse ⟨.null⟩ [] exSite (.obj [("other", .null)])
      "2024-01-01T00:00:00Z" = .ok (⟨.null⟩, []) :=
  ⟨Or.inl rfl,
    checker_no_offers_noop ⟨.null⟩ [] exSite "2024-01-01T00:00:00Z" [("other", .null)]
      (Or.inl rfl)⟩

/-! ## C8: corrected uniqueness of entry ids across runs -/

/-- C8 counterexample: starting from an empty entry list, the run sequence
fetching versions 6.3, 6.4, 6.3 produces two distinct entries with the
identical id `wordpress-6.3`: the stored watermark only remembers the last
value, so revisiting an earlier version creates a second Entry for it. -/
theorem checker_duplicate_id_counterexample :
    ((runAllStr exSite [("6.3", "t1"), ("6.4", "t2"), ("6.3", "t3")]).2.map Entry.id
      = [some "wordpress-6.3", some "wordpress-6.4", some "wordpress-6.3"]) ∧
    ¬ ((runAllStr exSite [("6.3", "t1"), ("6.4", "t2"), ("6.3", "t3")]).2.map
        Entry.id).Nodup :=
  ⟨rfl, by decide⟩

/-- One State Checker run preserves the adjacent-distinctness invariant. -/
theorem runStr_preserves_inv (site : Site) (acc : StateJson × List Entry)
    (r : String × String) (h : CheckerInv acc) : CheckerInv (runStr site acc r) := by
  obtain ⟨hchain, hlast⟩ := h
  rcases acc with ⟨st, es⟩
  by_cases hf : r.1 = ""
  · simpa [runStr, checkMain, pyFalsy, hf] using And.intro hchain hlast
  · by_cases he : jsonEq st.wordpress_latest (.str r.1) = true
    · simpa [runStr, checkMain, pyFalsy, hf, he] using And.intro hchain hlast
    · have he' : jsonEq st.wordpress_latest (.str r.1) = false := by
        simpa using he
      have hstep : runStr site (st, es) r
          = (⟨.str r.1⟩, es ++ [newEntry (.str r.1) site r.2]) := by
        simp [runStr, checkMain, pyFalsy, hf, he']
      rw [hstep]
      constructor
      · rw [List.chain'_append]
        refine ⟨hchain, List.chain'_singleton _, ?_⟩
        intro x hx y hy
        have hne : es ≠ [] := by
          rintro rfl; simp at hx
        obtain ⟨v, hst, e', hlast', hid⟩ := hlast hne
        rw [Option.mem_def] at hx hy
        have hst' : st.wordpress_latest = Json.str v := hst
        have hlast'' : es.getLast? = some e' := hlast'
        rw [hx] at hlast''
        have hx' : x = e' := Option.some.inj hlast''
        rw [List.head?_cons] at hy
        have hy' : y = newEntry (.str r.1) site r.2 := (Option.some.inj hy).symm
        intro hxy
        rw [hx', hy'] at hxy
        rw [hid] at hxy
        have hidy : (newEntry (.str r.1) site r.2).id = some ("wordpress-" ++ r.1) := rfl
        rw [hidy] at hxy
        have hveq : v = r.1 := string_append_cancel _ _ _ (Option.some.inj hxy)
        rw [hst', hveq, jsonEq_str] at he'
        simp at he'
      · intro _
        exact ⟨r.1, rfl, newEntry (.str r.1) site r.2, List.getLast?_concat es, rfl⟩

/-- A fold of State Checker runs preserves the invariant. -/
theorem runAll_preserves_inv (site : Site) :
    ∀ (runs : List (String × String)) (acc : StateJson × List Entry),
      CheckerInv acc → CheckerInv (List.foldl (runStr site) acc runs) := by
  intro runs
  induction runs with
  | nil => intro acc h; exact h
  | cons r rs ih => intro acc h; exact ih _ (runStr_preserves_inv site acc r h)

/-- C8 amended: across any sequence of State Checker runs starting from an
empty entry list, no two adjacent entries share an id (a repeated fetch of
the stored version appends nothing); ids of non-adjacent entries can
recur when the external version sequence revisits an earlier value. -/
theorem checker_adjacent_ids_distinct (site : Site) (runs : List (String × String)) :
    List.Chain' (fun a b => a.id ≠ b.id) (runAllStr site runs).2 :=
  (runAll_preserves_inv site runs ({ wordpress_latest := .null }, [])
    ⟨List.chain'_nil, fun h => absurd rfl h⟩).1

/-! ## Feed Builder helper lemmas -/

/-- A list containing an unparseable timestamp makes the date pass raise. -/
theorem parseAllDates_error_of_mem :
    ∀ entries : List Entry, (∃ e ∈ entries, parse_iso8601 e.created_at = none) →
      parseAllDates entries = .error .valueError := by
  intro entries
  induction entries with
  | nil => rintro ⟨e, he, -⟩; cases he
  | cons a l ih =>
    rintro ⟨e, he, hp⟩
    rcases List.mem_cons.mp he with rfl | he'
    · simp [parseAllDates, hp]
    · cases hpa : parse_iso8601 a.created_at with
      | none => simp [parseAllDates, hpa]
      | some d => simp [parseAllDates, hpa, ih ⟨e, he', hp⟩]

/-- When the date pass succeeds, every entry's timestamp parses. -/
theorem parseAllDates_ok_parse :
    ∀ (entries : List Entry) (dts : List DateTime), parseAllDates entries = .ok dts →
      ∀ e ∈ entries, ∃ d, parse_iso8601 e.created_at = some d := by
  intro entries
  induction entries with
  | nil => intro dts _ e he; cases he
  | cons a l ih =>
    intro dts h e he
    cases hpa : parse_iso8601 a.created_at with
    | none => rw [parseAllDates, hpa] at h; cases h
    | some d =>
      rcases List.mem_cons.mp he with rfl | he'
      · exact ⟨d, hpa⟩
      · rw [parseAllDates, hpa] at h
        cases hrest : parseAllDates l with
        | error err => rw [hrest] at h; cases h
        | ok rest => exact ih rest hrest e he'

/-- When every entry's timestamp parses, the item loop succeeds. -/
theorem renderItems_ok_of_parse (site : Site) :
    ∀ l : List Entry, (∀ e ∈ l, ∃ d, parse_iso8601 e.created_at = some d) →
      ∃ items, renderItems site l = .ok items := by
  intro l
  induction l with
  | nil => intro _; exact ⟨[], rfl⟩
  | cons a l ih =>
    intro h
    obtain ⟨d, hd⟩ := h a (List.mem_cons_self a l)
    obtain ⟨items, hitems⟩ := ih fun e he => h e (List.mem_cons_of_mem a he)
    exact ⟨mkItem site a d :: items, by simp [renderItems, hd, hitems]⟩

/-- A successful datetime comparison decides the instant-key order. -/
theorem dtGT_ok (a b : DateTime) (g : Bool) (h : dtGT a b = .ok g) :
    g = decide (keyOf b < keyOf a) := by
  unfold dtGT at h
  cases ha : a.offset <;> cases hb : b.offset <;> rw [ha, hb] at h <;>
    first
      | exact (Except.ok.inj h).symm
      | cases h

/-- The fold of Python's `max` returns an element of the considered values
that bounds all of them (and the accumulator) from above. -/
theorem pyMaxGo_spec :
    ∀ (xs : List DateTime) (acc m : DateTime), pyMaxGo acc xs = .ok m →
      (m = acc ∨ m ∈ xs) ∧ keyOf acc ≤ keyOf m ∧ ∀ d ∈ xs, keyOf d ≤ keyOf m := by
  intro xs
  induction xs with
  | nil =>
    intro acc m h
    rw [pyMaxGo] at h
    cases h
    exact ⟨Or.inl rfl, le_refl _, by simp⟩
  | cons x xs ih =>
    intro acc m h
    rw [pyMaxGo] at h
    cases hg : dtGT x acc with
    | error e => rw [hg] at h; cases h
    | ok g =>
      rw [hg] at h
      have hgd := dtGT_ok _ _ _ hg
      by_cases hc : keyOf acc < keyOf x
      · have hgt : g = true := by rw [hgd]; simp [hc]
        rw [hgt] at h
        simp only [if_pos rfl] at h
        obtain ⟨hmem, hle, hub⟩ := ih x m h
        refine ⟨?_, le_trans (le_of_lt hc) hle, ?_⟩
        · rcases hmem with rfl | hm
          · exact Or.inr (List.mem_cons_self _ _)
          · exact Or.inr (List.mem_cons_of_mem _ hm)
        · intro d hd
          rcases List.mem_cons.mp hd with rfl | hd'
          · exact hle
          · exact hub d hd'
      · have hgt : g = false := by rw [hgd]; simp [hc]
        rw [hgt] at h
        simp only [Bool.false_eq_true, if_neg] at h
        obtain ⟨hmem, hle, hub⟩ := ih acc m h
        refine ⟨?_, hle, ?_⟩
        · rcases hmem with rfl | hm
          · exact Or.inl rfl
          · exact Or.inr (List.mem_cons_of_mem _ hm)
        · intro d hd
          rcases List.mem_cons.mp hd with rfl | hd'
          · exact le_trans (not_lt.mp hc) hle
          · exact hub d hd'

/-- Python's `max` over a nonempty comparable list returns a member that
bounds every member from above. -/
theorem pyMax_spec (l : List DateTime) (m : DateTime) (h : pyMax l = .ok m) :
    m ∈ l ∧ ∀ d ∈ l, keyOf d ≤ keyOf m := by
  cases l with
  | nil => cases h
  | cons x xs =>
    rw [pyMax] at h
    obtain ⟨hmem, hle, hub⟩ := pyMaxGo_spec xs x m h
    refine ⟨?_, ?_⟩
    · rcases hmem with rfl | hm
      · exact List.mem_cons_self _ _
      · exact List.mem_cons_of_mem _ hm
    · intro d hd
      rcases List.mem_cons.mp hd with rfl | hd'
      · exact hle
      · exact hub d hd'

/-! ## C3: an unparseable timestamp aborts the run before the output write -/

/-- C3: when any entry's `created_at` is unparseable, Feed Builder's main
raises a `ValueError` before reaching the output write, so `feed.xml` is
never written on that run and any pre-existing content remains unchanged. -/
theorem build_feed_unparseable_preserves_output (site : Site) (entries : List Entry)
    (feedFile : Option Feed)
    (h : ∃ e ∈ entries, parse_iso8601 e.created_at = none) :
    buildFeedRender site entries = .error .valueError ∧
    buildFeedMain site entries feedFile = feedFile := by
  have hEmpty : entries.isEmpty = false := by
    obtain ⟨e, he, -⟩ := h
    cases entries with
    | nil => cases he
    | cons a l => rfl
  have hperr := parseAllDates_error_of_mem entries h
  have hrender : buildFeedRender site entries = .error .valueError := by
    simp [buildFeedRender, lastBuildOf, hEmpty, hperr]
  exact ⟨hrender, by simp [buildFeedMain, hrender]⟩

/-- Witness for C3: the entry whose timestamp is `not-a-date` leaves the
stale feed file untouched. -/
theorem build_feed_unparseable_preserves_output_witness :
    (∃ e ∈ [badEntry], parse_iso8601 e.created_at = none) ∧
    (buildFeedRender exSite [badEntry] = .error .valueError ∧
      buildFeedMain exSite [badEntry] (some staleFeed) = some staleFeed) :=
  ⟨⟨badEntry, List.mem_singleton.mpr rfl, rfl⟩,
    build_feed_unparseable_preserves_output exSite [badEntry] (some staleFeed)
      ⟨badEntry, List.mem_singleton.mpr rfl, rfl⟩⟩

/-! ## C4: rendered items are sorted by created_at descending -/

/-- C4: whenever rendering succeeds, the emitted items are the items of a
permutation of the entry list that is sorted by `created_at` in descending
order; in particular the three entries dated 2024-01-01, 2024-03-01 and
2024-02-01 render in the order March, February, January. -/
theorem build_feed_items_sorted_descending :
    (∀ (site : Site) (entries : List Entry) (f : Feed),
        buildFeedRender site entries = .ok f →
        ∃ es : List Entry, entries.Perm es ∧ es.Pairwise entryDescOrder ∧
          renderItems site es = .ok f.items) ∧
    (buildFeedRender exSite [exJan, exMar, exFeb]).map (fun f => f.items.map Item.guid)
      = .ok ["mar", "feb", "jan"] := by
  constructor
  · intro site entries f h
    refine ⟨sortEntries entries,
      (List.perm_insertionSort entryDescOrder entries).symm, ?_, ?_⟩
    · haveI : IsTotal Entry entryDescOrder :=
        ⟨fun a b => charLeList_total b.created_at.data a.created_at.data⟩
      haveI : IsTrans Entry entryDescOrder :=
        ⟨fun a b c hab hbc =>
          charLeList_trans c.created_at.data b.created_at.data a.created_at.data hbc hab⟩
      exact List.sorted_insertionSort entryDescOrder entries
    · unfold buildFeedRender at h
      cases hlb : lastBuildOf entries with
      | error e => rw [hlb] at h; cases h
      | ok lb =>
        rw [hlb] at h
        cases hri : renderItems site (sortEntries entries) with
        | error e => rw [hri] at h; cases h
        | ok items => rw [hri] at h; cases h; rfl
  · rfl

/-- Witness for C4 instantiating the universal part on the empty run. -/
theorem build_feed_items_sorted_descending_witness :
    buildFeedRender ⟨none, none, none⟩ [] = .ok wEmptyFeed ∧
    (∃ es : List Entry, List.Perm [] es ∧ es.Pairwise entryDescOrder ∧
      renderItems ⟨none, none, none⟩ es = .ok wEmptyFeed.items) :=
  ⟨rfl, build_feed_items_sorted_descending.1 ⟨none, none, none⟩ [] wEmptyFeed rfl⟩

/-! ## C5: lastBuildDate is the maximum created_at, absent when empty -/

/-- C5: on an empty entry list the rendered channel has no lastBuildDate
element; on a nonempty list whose timestamps parse and compare, the channel
carries exactly the maximum parsed `created_at` re-encoded in the RFC 2822
output format. -/
theorem build_feed_last_build_date (site : Site) (entries : List Entry) :
    (entries = [] → ∃ f, buildFeedRender site entries = .ok f ∧ f.lastBuildDate = none) ∧
    (∀ dts m, parseAllDates entries = .ok dts → pyMax dts = .ok m →
      ∃ f, buildFeedRender site entries = .ok f ∧
        f.lastBuildDate = some (rfc2822 m) ∧ m ∈ dts ∧ ∀ d ∈ dts, keyOf d ≤ keyOf m) := by
  constructor
  · rintro rfl
    exact ⟨_, rfl, rfl⟩
  · intro dts m hparse hmax
    have hne : entries ≠ [] := by
      rintro rfl
      rw [parseAllDates] at hparse
      cases hparse
      cases hmax
    have hEmpty : entries.isEmpty = false := by
      cases entries with
      | nil => exact absurd rfl hne
      | cons a l => rfl
    have hall := parseAllDates_ok_parse entries dts hparse
    have hallsorted : ∀ e ∈ sortEntries entries, ∃ d, parse_iso8601 e.created_at = some d :=
      fun e he => hall e ((List.perm_insertionSort entryDescOrder entries).mem_iff.mp he)
    obtain ⟨items, hitems⟩ := renderItems_ok_of_parse site (sortEntries entries) hallsorted
    obtain ⟨hmem, hub⟩ := pyMax_spec dts m hmax
    refine ⟨{ title := site.title.getD "Wapuugotchi RSS", link := site.link.getD "",
              description := site.description.getD "",
              lastBuildDate := some (rfc2822 m), items := items }, ?_, rfl, hmem, hub⟩
    simp [buildFeedRender, lastBuildOf, hEmpty, hparse, hmax, hitems]

/-- Witness for C5 at the spec's reference timestamp. -/
theorem build_feed_last_build_date_witness :
    parseAllDates [mayEntry] = .ok [mayDT] ∧ pyMax [mayDT] = .ok mayDT ∧
    (∃ f, buildFeedRender exSite [mayEntry] = .ok f ∧
      f.lastBuildDate = some (rfc2822 mayDT) ∧ mayDT ∈ [mayDT] ∧
      ∀ d ∈ [mayDT], keyOf d ≤ keyOf mayDT) :=
  ⟨rfl, rfl, (build_feed_last_build_date exSite [mayEntry]).2 [mayDT] mayDT rfl rfl⟩

/-! ## C6: corrected link fallback -/

/-- C6 counterexample: an Entry whose `link` key is present but empty
renders with an empty link element, not with Site.link, refuting the claim
that an empty link falls back to the site link. -/
theorem build_feed_empty_link_counterexample :
    emptyLinkEntry.link = some "" ∧ exSite.link = some "https://wapuu.example" ∧
    (buildFeedRender exSite [emptyLinkEntry]).map (fun f => f.items.map Item.link)
      = .ok [""] ∧ ("" : String) ≠ "https://wapuu.example" :=
  ⟨rfl, rfl, rfl, by decide⟩

/-- C6 amended: an Entry with no `link` key renders with Site.link (empty
string when the site has no link); an Entry with an explicit `link` value,
even the empty string, renders that value verbatim. -/
theorem build_feed_link_fallback_amended (site : Site) (e : Entry) (d : DateTime) :
    (e.link = none → (mkItem site e d).link = site.link.getD "") ∧
    (∀ l, e.link = some l → (mkItem site e d).link = l) := by
  constructor
  · intro h; simp [mkItem, h]
  · intro l h; simp [mkItem, h]

/-- Witness for the amended C6 on an absent and an explicit link. -/
theorem build_feed_link_fallback_amended_witness :
    (absentLinkEntry.link = none ∧
      (mkItem exSite absentLinkEntry exDT).link = exSite.link.getD "") ∧
    (explicitLinkEntry.link = some "https://elsewhere.example" ∧
      (mkItem exSite explicitLinkEntry exDT).link = "https://elsewhere.example") :=
  ⟨⟨rfl, (build_feed_link_fallback_amended exSite absentLinkEntry exDT).1 rfl⟩,
    ⟨rfl, (build_feed_link_fallback_amended exSite explicitLinkEntry exDT).2 _ rfl⟩⟩

/-! ## C7: corrected channel defaults -/

/-- C7 counterexample: with no site.json the rendered channel title is the
non-empty default `Wapuugotchi RSS`, refuting the claim that title, link
and description are all empty. -/
theorem build_feed_default_title_counterexample :
    buildFeedRender ⟨none, none, none⟩ [] = .ok wEmptyFeed ∧
    wEmptyFeed.title = "Wapuugotchi RSS" ∧ wEmptyFeed.title ≠ "" :=
  ⟨rfl, rfl, by decide⟩

/-- C7 amended: with site.json absent (all fields missing), every
successful render emits a channel whose title is the default
`Wapuugotchi RSS` while link and description default to the empty
string. -/
theorem build_feed_default_channel_amended (entries : List Entry) (f : Feed)
    (h : buildFeedRender ⟨none, none, none⟩ entries = .ok f) :
    f.title = "Wapuugotchi RSS" ∧ f.link = "" ∧ f.description = "" := by
  unfold buildFeedRender at h
  cases hlb : lastBuildOf entries with
  | error e => rw [hlb] at h; cases h
  | ok lb =>
    rw [hlb] at h
    cases hri : renderItems ⟨none, none, none⟩ (sortEntries entries) with
    | error e => rw [hri] at h; cases h
    | ok items => rw [hri] at h; cases h; exact ⟨rfl, rfl, rfl⟩

/-- Witness for the amended C7 on the empty run. -/
theorem build_feed_default_channel_amended_witness :
    buildFeedRender ⟨none, none, none⟩ [] = .ok wEmptyFeed ∧
    (wEmptyFeed.title = "Wapuugotchi RSS" ∧ wEmptyFeed.link = "" ∧
      wEmptyFeed.description = "") :=
  ⟨rfl, build_feed_default_channel_amended [] wEmptyFeed rfl⟩
